import Mathlib

/-!
# Verification of the legacywallet allocation engine and will lifecycle

Shallow embedding of the allocation-commit operation (`saveAllocations` in
`src/pages/AssetManagement.tsx`), the will save handler
(`handleSaveAndContinue` in `CreateChatWill.tsx`), the finalize handler
(`handleSubmit` in `ReviewWill.tsx`) and the recipient notification edge
function (`notify-recipients`, bundled in the SQL migration), together with
the constraints the migration places on the `asset_allocations` table
(`UNIQUE(asset_id, recipient_id)`, `CHECK (0 < percentage <= 100)`,
column type `DECIMAL(5,2)`).

JavaScript numbers are IEEE-754 binary64 doubles.  They are modelled
exactly by rationals: `Q` is an exact (unnormalized) rational type whose
constructions all keep the denominator positive, `fl` rounds a rational to
the nearest double value (round-to-nearest, ties-to-even, normal range),
`parseFloatQ` models `parseFloat` on plain decimal strings, and each `+`
of the percentage sum is followed by a rounding step, as in the hardware.
-/

namespace LegacyWallet

/-- Exact rational number, kept unnormalized; every value built by the
definitions below has a positive denominator. -/
structure Q where
  num : Int
  den : Int
deriving DecidableEq

def ofInt (n : Int) : Q := ⟨n, 1⟩

def qAdd (a b : Q) : Q := ⟨a.num * b.den + b.num * a.den, a.den * b.den⟩

def qMul (a b : Q) : Q := ⟨a.num * b.num, a.den * b.den⟩

def qNeg (a : Q) : Q := ⟨-a.num, a.den⟩

def qAbs (a : Q) : Q := ⟨(a.num.natAbs : Int), a.den⟩

/-- Value equality of exact rationals (denominators positive). -/
def qEq (a b : Q) : Bool := a.num * b.den == b.num * a.den

def qLt (a b : Q) : Bool := decide (a.num * b.den < b.num * a.den)

def qLe (a b : Q) : Bool := decide (a.num * b.den ≤ b.num * a.den)

def qFloor (a : Q) : Int := Int.fdiv a.num a.den

def qHalf : Q := ⟨1, 2⟩

/-- Base-2 integer logarithm of a positive rational, found by repeated
doubling/halving with a fuel bound large enough for any value arising
from a decimal literal of a few hundred digits. -/
def log2fuel : Nat → Q → Int → Int
  | 0, _, e => e
  | fuel + 1, a, e =>
    if qLt a (ofInt 1) then log2fuel fuel (qMul a (ofInt 2)) (e - 1)
    else if qLe (ofInt 2) a then log2fuel fuel (qMul a qHalf) (e + 1)
    else e

def qlog2 (a : Q) : Int := log2fuel 3000 a 0

/-- Round a rational to the nearest integer, ties to even. -/
def roundHalfEven (m : Q) : Int :=
  let f := qFloor m
  let r := qAdd m (qNeg (ofInt f))
  if qLt r qHalf then f
  else if qLt qHalf r then f + 1
  else if f % 2 = 0 then f else f + 1

def pow2 (e : Int) : Q :=
  if 0 ≤ e then ⟨2 ^ e.toNat, 1⟩ else ⟨1, 2 ^ (-e).toNat⟩

/-- Round an exact rational to the nearest IEEE-754 binary64 double
(normal range, round-to-nearest, ties-to-even).  This is the value a
JavaScript number holds after any arithmetic operation on the inputs the
application handles. -/
def fl (q : Q) : Q :=
  if qEq q (ofInt 0) then ofInt 0
  else
    let a := qAbs q
    let e := qlog2 a - 52
    let n := roundHalfEven (qMul a (pow2 (-e)))
    let mag := qMul (ofInt n) (pow2 e)
    if qLt q (ofInt 0) then qNeg mag else mag

/-- Split leading decimal digits off a character list. -/
def spanDigits : List Char → List Nat × List Char
  | [] => ([], [])
  | c :: cs =>
    if c.isDigit then
      let p := spanDigits cs
      ((c.toNat - 48) :: p.1, p.2)
    else ([], c :: cs)

def natOfDigits (ds : List Nat) : Nat := ds.foldl (fun acc d => acc * 10 + d) 0

/-- Model of JavaScript `parseFloat` on the plain decimal grammar
`[sign] digits [. digits]` (trailing junk ignored, as in JS); `none`
models `NaN`.  The returned rational is the binary64 double nearest to
the written decimal value, exactly as `parseFloat` produces. -/
def parseFloatQ (s : String) : Option Q :=
  let cs := s.toList
  let signed : Bool × List Char :=
    match cs with
    | '-' :: rest => (true, rest)
    | '+' :: rest => (false, rest)
    | _ => (false, cs)
  let p1 := spanDigits signed.2
  let ds2 : List Nat :=
    match p1.2 with
    | '.' :: rest => (spanDigits rest).1
    | _ => []
  if p1.1.isEmpty ∧ ds2.isEmpty then none
  else
    let mag : Q := ⟨(natOfDigits (p1.1 ++ ds2) : Int), (10 : Int) ^ ds2.length⟩
    some (fl (if signed.1 then qNeg mag else mag))

/-! ## Allocation Consistency Engine (`AssetManagement.tsx`) -/

/-- One row of the allocation editing buffer: the recipient dropdown value
and the percentage input field (a raw string, as held in React state). -/
structure AllocRow where
  recipientId : String
  percentage : String
deriving DecidableEq

/-- `parseFloat(a.percentage) || 0`: `NaN` is coerced to `0` by JS
truthiness (and `0` stays `0`). -/
def pctOrZero (s : String) : Q :=
  match parseFloatQ s with
  | none => ofInt 0
  | some v => v

/-- `getTotalPercentage`: `allocations.reduce((sum, a) => sum +
(parseFloat(a.percentage) || 0), 0)`, with binary64 rounding after each
addition. -/
def getTotalPercentage (rows : List AllocRow) : Q :=
  rows.foldl (fun sum a => fl (qAdd sum (pctOrZero a.percentage))) (ofInt 0)

/-- The per-row check in `saveAllocations`:
`!a.percentage || isNaN(pct) || pct <= 0 || pct > 100`. -/
def rowInvalid (a : AllocRow) : Bool :=
  a.percentage == "" ||
    match parseFloatQ a.percentage with
    | none => true
    | some v => qLe v (ofInt 0) || qLt (ofInt 100) v

inductive SaveOutcome
  | notComplete
  | invalidPercentage
  | saveFailed
  | saved
deriving DecidableEq

/-- The two early-return validation checks of `saveAllocations`, in source
order: first the sum-must-be-100 check (skipped for an empty row list),
then the per-row range check. -/
def validateRows (rows : List AllocRow) : Option SaveOutcome :=
  if rows.length > 0 && !(qEq (getTotalPercentage rows) (ofInt 100)) then
    some .notComplete
  else if rows.any rowInvalid then some .invalidPercentage
  else none

/-- A stored row of the `asset_allocations` table. -/
structure StoredAlloc where
  asset_id : String
  recipient_id : String
  allocation_percentage : Q
deriving DecidableEq

/-- `DELETE FROM asset_allocations WHERE asset_id = ?`. -/
def deleteForAsset (db : List StoredAlloc) (assetId : String) : List StoredAlloc :=
  db.filter fun r => r.asset_id != assetId

/-- `CHECK (allocation_percentage > 0 AND allocation_percentage <= 100)`. -/
def checkOk (p : Q) : Bool := qLt (ofInt 0) p && qLe p (ofInt 100)

/-- No two rows of the table share an `(asset_id, recipient_id)` pair. -/
def noDupPairs : List StoredAlloc → Bool
  | [] => true
  | r :: rest =>
    !(rest.any fun x => x.asset_id == r.asset_id && x.recipient_id == r.recipient_id)
      && noDupPairs rest

/-- `DECIMAL(5,2)`: Postgres rounds the incoming double to two fractional
digits, half away from zero (all inserted values are positive). -/
def roundTo2 (q : Q) : Q := ⟨qFloor (qAdd (qMul q (ofInt 100)) qHalf), 100⟩

/-- A single multi-row `INSERT`: succeeds and appends the rows iff every
row passes the percentage `CHECK` and the `UNIQUE(asset_id, recipient_id)`
constraint still holds; otherwise the statement fails as a whole and the
table is unchanged. -/
def dbInsert (db rows : List StoredAlloc) : Option (List StoredAlloc) :=
  if rows.all (fun r => checkOk r.allocation_percentage) && noDupPairs (db ++ rows) then
    some (db ++ rows)
  else none

/-- The rows `saveAllocations` maps the buffer to before inserting
(`allocation_percentage: parseFloat(a.percentage)`), as they end up stored
in the `DECIMAL(5,2)` column. -/
def newStoredRows (assetId : String) (rows : List AllocRow) : List StoredAlloc :=
  rows.map fun a =>
    ⟨assetId, a.recipientId, roundTo2 ((parseFloatQ a.percentage).getD (ofInt 0))⟩

/-- The write phase of `saveAllocations`: the delete call (whose result is
not inspected — `deleteFails` says whether the store actually performed
it), then, for a non-empty buffer, the insert; an insert error lands in
the catch block (`saveFailed`). -/
def commitPhase (deleteFails : Bool) (db : List StoredAlloc) (assetId : String)
    (rows : List AllocRow) : SaveOutcome × List StoredAlloc :=
  let db1 := if deleteFails then db else deleteForAsset db assetId
  if rows.length > 0 then
    match dbInsert db1 (newStoredRows assetId rows) with
    | some db2 => (.saved, db2)
    | none => (.saveFailed, db1)
  else (.saved, db1)

/-- `saveAllocations`: validation (early returns, no store access), then
delete-then-insert. -/
def saveAllocations (deleteFails : Bool) (db : List StoredAlloc) (assetId : String)
    (rows : List AllocRow) : SaveOutcome × List StoredAlloc :=
  match validateRows rows with
  | some e => (e, db)
  | none => commitPhase deleteFails db assetId rows

/-! ## Will Lifecycle Manager (`CreateChatWill.tsx`, `ReviewWill.tsx`) -/

/-- A row of the `wills` table (the fields the handlers touch). -/
structure Will where
  id : String
  user_id : String
  type : String
  status : String
  title : String
  content : Option String
  transcript : Option String
  updated_at : Nat
deriving DecidableEq

/-- `maybeSingle()` on `wills` filtered by `user_id` and `type`. -/
def findWill (wills : List Will) (userId ty : String) : Option Will :=
  wills.find? fun w => w.user_id == userId && w.type == ty

/-- `handleSaveAndContinue` of `CreateChatWill.tsx`: look the chat will up
by `(user_id, type)`; if it exists, overwrite its transcript and content
and set `status: "in_progress"`, refreshing `updated_at`; otherwise insert
a fresh will in status `in_progress`. -/
def handleSaveAndContinue (wills : List Will) (userId transcript newId : String)
    (now : Nat) : List Will :=
  match findWill wills userId "chat" with
  | some w =>
    wills.map fun x =>
      if x.id == w.id then
        { x with transcript := some transcript, content := some transcript,
                 status := "in_progress", updated_at := now }
      else x
  | none =>
    wills ++ [{ id := newId, user_id := userId, type := "chat",
                status := "in_progress", title := "My Chat-Based Will",
                content := some transcript, transcript := some transcript,
                updated_at := now }]

/-- A row of the `recipients` table (the fields the finalize path and the
notification function use); `email` is a nullable column. -/
structure RecipientRec where
  id : String
  full_name : String
  email : Option String
deriving DecidableEq

/-- Result of `supabase.functions.invoke("notify-recipients", ...)` as seen
by `handleSubmit`: either a function-level error or a payload carrying the
`sent` count. -/
inductive NotifyOutcome
  | invokeError
  | ok (sent : Nat) (total : Nat)
deriving DecidableEq

/-- What the finalize click produces for the user: blocked button (the
acknowledgment checkbox is unchecked), the missing-will guard, the catch
block of a failed status update, or navigation to the confirmation page
with a warning toast, a success toast, or no notification toast. -/
inductive FinalizeResult
  | blocked
  | noWill
  | failed
  | doneWarn
  | doneSent (n : Nat)
  | done
deriving DecidableEq

/-- `handleSubmit` of `ReviewWill.tsx` (with the button's
`disabled={!agreed || !will}` gate): update the will's status to
`completed`; on success, if there are recipients, invoke the notification
function — an invoke error only produces a warning toast, a payload with
`sent > 0` a success toast — and navigate to the confirmation page. -/
def handleSubmit (wills : List Will) (will : Option Will) (agreed : Bool)
    (recipients : List RecipientRec) (updateFails : Bool)
    (outcome : NotifyOutcome) : FinalizeResult × List Will :=
  if !agreed then (.blocked, wills)
  else
    match will with
    | none => (.noWill, wills)
    | some w =>
      if updateFails then (.failed, wills)
      else
        let wills1 := wills.map fun x =>
          if x.id == w.id then { x with status := "completed" } else x
        if recipients.length > 0 then
          match outcome with
          | .invokeError => (.doneWarn, wills1)
          | .ok sent _ => if sent > 0 then (.doneSent sent, wills1) else (.done, wills1)
        else (.done, wills1)

/-! ## Notification Dispatcher (`notify-recipients` edge function) -/

/-- The JSON payload the edge function answers with: `sent`, `total`
(absent on the recipients-empty early return) and one entry per attempted
email, `false` marking an individual send failure. -/
structure NotifyResponse where
  sent : Nat
  total : Option Nat
  attempts : List (String × Bool)
deriving DecidableEq

/-- The `notify-recipients` handler: fetch recipients with a non-null
email (`.not("email", "is", null)`); if none, return `sent=0` with no
total; otherwise filter again by JS truthiness (dropping empty strings),
send one email per remaining recipient — an individual failure is caught
and recorded, not propagated — and report `sent` successes out of `total`
attempts.  `sendOk` tells which addresses the mail provider accepts. -/
def notifyHandler (recipients : List RecipientRec) (sendOk : String → Bool) :
    NotifyResponse :=
  let fetched := recipients.filter fun r => r.email.isSome
  if fetched.isEmpty then { sent := 0, total := none, attempts := [] }
  else
    let emailed := fetched.filter fun r => r.email.getD "" != ""
    let results := emailed.map fun r => (r.email.getD "", sendOk (r.email.getD ""))
    { sent := (results.filter fun p => p.2).length
      total := some results.length
      attempts := results }

/-- A recipient the handler actually emails: non-null, non-empty address. -/
def hasEmail (r : RecipientRec) : Bool := r.email.getD "" != ""

/-! ## Helper lemmas -/

theorem validateRows_cases {rows : List AllocRow} {e : SaveOutcome}
    (h : validateRows rows = some e) :
    e = .notComplete ∨ e = .invalidPercentage := by
  unfold validateRows at h
  split at h
  · cases h; exact Or.inl rfl
  · split at h
    · cases h; exact Or.inr rfl
    · cases h

theorem saveAllocations_validate_some (df : Bool) (db : List StoredAlloc)
    (assetId : String) {rows : List AllocRow} {e : SaveOutcome}
    (h : validateRows rows = some e) :
    saveAllocations df db assetId rows = (e, db) := by
  unfold saveAllocations
  rw [h]

theorem saveAllocations_validate_none (df : Bool) (db : List StoredAlloc)
    (assetId : String) {rows : List AllocRow} (h : validateRows rows = none) :
    saveAllocations df db assetId rows = commitPhase df db assetId rows := by
  unfold saveAllocations
  rw [h]

theorem validateRows_eq_notComplete {rows : List AllocRow} (hne : rows ≠ [])
    (hsum : qEq (getTotalPercentage rows) (ofInt 100) = false) :
    validateRows rows = some .notComplete := by
  unfold validateRows
  rw [if_pos]
  simp [hsum, List.length_pos.mpr hne]

theorem validateRows_eq_invalid {rows : List AllocRow}
    (hsum : qEq (getTotalPercentage rows) (ofInt 100) = true)
    (hinv : rows.any rowInvalid = true) :
    validateRows rows = some .invalidPercentage := by
  unfold validateRows
  rw [if_neg, if_pos hinv]
  simp [hsum]

theorem dbInsert_eq_some {db rows out : List StoredAlloc}
    (h : dbInsert db rows = some out) : out = db ++ rows := by
  unfold dbInsert at h
  split at h
  · cases h; rfl
  · cases h

/-! ## Claims -/

/-- C2 (amended core): a row set rejected by the validation the code
performs causes no store access at all: the error is returned to the
caller and the stored table is exactly what it was, and the only
validation error kinds the code produces are `AllocationNotComplete` and
`InvalidPercentage`. -/
theorem c2_validation_no_write (df : Bool) (db : List StoredAlloc) (assetId : String)
    (rows : List AllocRow) (e : SaveOutcome) (h : validateRows rows = some e) :
    saveAllocations df db assetId rows = (e, db) ∧
    (e = .notComplete ∨ e = .invalidPercentage) :=
  ⟨saveAllocations_validate_some df db assetId h, validateRows_cases h⟩

/-- Witness for C2: the over-allocated set `[{R1, 60}, {R2, 50}]` is
rejected with `AllocationNotComplete` and the stored row is untouched. -/
theorem c2_validation_no_write_witness :
    saveAllocations false [⟨"A", "R9", ofInt 100⟩] "A" [⟨"R1", "60"⟩, ⟨"R2", "50"⟩]
      = (.notComplete, [⟨"A", "R9", ofInt 100⟩]) :=
  (c2_validation_no_write false [⟨"A", "R9", ofInt 100⟩] "A"
    [⟨"R1", "60"⟩, ⟨"R2", "50"⟩] .notComplete (by decide)).1

/-- C2 counterexample: a duplicate-recipient set counts as failing
validation in the claim's taxonomy (`DuplicateRecipient`), yet committing
it does write: the pre-existing stored row for the asset is deleted (the
insert then fails on the store's unique constraint), so the stored state
after the call differs from the state before it. -/
theorem c2_counterexample :
    ([⟨"R1", "50"⟩, ⟨"R1", "50"⟩] : List AllocRow).map AllocRow.recipientId
        = ["R1", "R1"] ∧
    saveAllocations false [⟨"A", "R9", ofInt 100⟩] "A" [⟨"R1", "50"⟩, ⟨"R1", "50"⟩]
        = (.saveFailed, []) ∧
    ([] : List StoredAlloc) ≠ [⟨"A", "R9", ofInt 100⟩] := by
  decide

theorem noDupPairs_append_right {l1 l2 : List StoredAlloc}
    (h : noDupPairs (l1 ++ l2) = true) : noDupPairs l2 = true := by
  induction l1 with
  | nil => exact h
  | cons r rest ih =>
    rw [List.cons_append] at h
    unfold noDupPairs at h
    exact ih (Bool.and_elim_right h)

theorem noDupPairs_newStoredRows {assetId : String} {rows : List AllocRow}
    (h : noDupPairs (newStoredRows assetId rows) = true) :
    (rows.map AllocRow.recipientId).Nodup := by
  induction rows with
  | nil => exact List.nodup_nil
  | cons r rest ih =>
    unfold newStoredRows at h
    rw [List.map_cons] at h
    unfold noDupPairs at h
    have h1 := Bool.and_elim_left h
    have h2 := Bool.and_elim_right h
    rw [List.map_cons, List.nodup_cons]
    refine ⟨?_, ih h2⟩
    intro hmem
    rcases List.mem_map.mp hmem with ⟨b, hb, hbid⟩
    have : (newStoredRows assetId rest).any
        (fun x => x.asset_id == assetId && x.recipient_id == r.recipientId) = true := by
      refine List.any_eq_true.mpr ⟨⟨assetId, b.recipientId, roundTo2 ((parseFloatQ b.percentage).getD (ofInt 0))⟩, ?_, ?_⟩
      · exact List.mem_map.mpr ⟨b, hb, rfl⟩
      · simp [hbid]
    simp [newStoredRows] at this h1
    rcases this with ⟨a, ha, hae⟩
    exact h1 a ha hae

/-- C1 (amended core): a duplicate-recipient row set is not caught by the
validation in `saveAllocations`; the commit reaches the write phase, the
existing rows of the asset are deleted, and the insert fails on the
store's `UNIQUE(asset_id, recipient_id)` constraint, surfacing only the
generic catch-block failure — the stored rows for the asset are left
cleared, not unchanged. -/
theorem c1_duplicate_write_phase (db : List StoredAlloc) (assetId : String)
    (rows : List AllocRow) (hv : validateRows rows = none)
    (hdup : ¬ (rows.map AllocRow.recipientId).Nodup) :
    saveAllocations false db assetId rows = (.saveFailed, deleteForAsset db assetId) := by
  have hne : rows ≠ [] := by
    intro h
    exact hdup (h ▸ List.nodup_nil)
  rw [saveAllocations_validate_none false db assetId hv]
  unfold commitPhase
  rw [if_pos (List.length_pos.mpr hne)]
  have hins : dbInsert (deleteForAsset db assetId) (newStoredRows assetId rows) = none := by
    unfold dbInsert
    rw [if_neg]
    intro hcond
    exact hdup (noDupPairs_newStoredRows (noDupPairs_append_right (Bool.and_elim_right hcond)))
  simp [hins]

/-- Witness for C1: committing `[{R1, 50}, {R1, 50}]` over a stored row
`{A, R0, 100}` wipes that row and reports the generic failure. -/
theorem c1_duplicate_write_phase_witness :
    saveAllocations false [⟨"A", "R0", ofInt 100⟩] "A" [⟨"R1", "50"⟩, ⟨"R1", "50"⟩]
      = (.saveFailed, []) := by
  have h := c1_duplicate_write_phase [⟨"A", "R0", ofInt 100⟩] "A"
    [⟨"R1", "50"⟩, ⟨"R1", "50"⟩] (by decide) (by decide)
  rw [h]
  decide

/-- C1 counterexample: the set `[{R1, 50}, {R1, 50}]` passes the commit
operation's validation (no duplicate check exists there), and committing
it over an existing stored row changes the stored allocation rows — the
asset ends up with no rows at all — contradicting "rejected before any
write is performed, and no stored allocation rows change". -/
theorem c1_counterexample :
    validateRows [⟨"R1", "50"⟩, ⟨"R1", "50"⟩] = none ∧
    saveAllocations false [⟨"A", "R1", ofInt 100⟩] "A" [⟨"R1", "50"⟩, ⟨"R1", "50"⟩]
        = (.saveFailed, []) ∧
    ([] : List StoredAlloc) ≠ [⟨"A", "R1", ofInt 100⟩] := by
  decide

/-- C3: a non-empty buffer whose (double) percentage sum differs from 100
is rejected with `AllocationNotComplete` and nothing is stored; a commit
that reaches the write phase has a sum of exactly 100 or an empty buffer;
and the empty buffer always passes validation and saves. -/
theorem c3_sum_invariant (df : Bool) (db : List StoredAlloc) (assetId : String)
    (rows : List AllocRow) :
    (rows ≠ [] → qEq (getTotalPercentage rows) (ofInt 100) = false →
      saveAllocations df db assetId rows = (.notComplete, db)) ∧
    ((saveAllocations df db assetId rows).1 = .saved ∨
        (saveAllocations df db assetId rows).1 = .saveFailed →
      rows = [] ∨ qEq (getTotalPercentage rows) (ofInt 100) = true) ∧
    validateRows [] = none ∧
    (saveAllocations df db assetId []).1 = .saved := by
  refine ⟨?_, ?_, by decide, ?_⟩
  · intro hne hsum
    exact saveAllocations_validate_some df db assetId (validateRows_eq_notComplete hne hsum)
  · intro h
    by_cases hne : rows = []
    · exact Or.inl hne
    · by_cases hsum : qEq (getTotalPercentage rows) (ofInt 100) = true
      · exact Or.inr hsum
      · rw [saveAllocations_validate_some df db assetId
          (validateRows_eq_notComplete hne (Bool.eq_false_iff.mpr hsum))] at h
        simp at h
  · rw [saveAllocations_validate_none df db assetId (by decide)]
    unfold commitPhase
    simp

/-- Witness for C3: `[{R1, 60}, {R2, 50}]` sums to 110 and is rejected
without touching the store. -/
theorem c3_sum_invariant_witness :
    saveAllocations true [⟨"B", "R5", ofInt 100⟩] "B" [⟨"R1", "60"⟩, ⟨"R2", "50"⟩]
      = (.notComplete, [⟨"B", "R5", ofInt 100⟩]) :=
  (c3_sum_invariant true [⟨"B", "R5", ofInt 100⟩] "B"
    [⟨"R1", "60"⟩, ⟨"R2", "50"⟩]).1 (by decide) (by decide)

/-- C4 (amended core): a buffer containing a row whose percentage does not
parse to a number in `(0, 100]` is always rejected with no write — but
the error kind depends on the order of the checks: the sum check runs
first, so the set gets `InvalidPercentage` only when its double sum is
exactly 100, and `AllocationNotComplete` otherwise. -/
theorem c4_order_of_checks (df : Bool) (db : List StoredAlloc) (assetId : String)
    (rows : List AllocRow) (r : AllocRow) (hr : r ∈ rows)
    (hinv : rowInvalid r = true) :
    saveAllocations df db assetId rows
      = (if qEq (getTotalPercentage rows) (ofInt 100) = true
          then .invalidPercentage else .notComplete, db) := by
  by_cases hsum : qEq (getTotalPercentage rows) (ofInt 100) = true
  · rw [if_pos hsum]
    exact saveAllocations_validate_some df db assetId
      (validateRows_eq_invalid hsum (List.any_eq_true.mpr ⟨r, hr, hinv⟩))
  · rw [if_neg hsum]
    exact saveAllocations_validate_some df db assetId
      (validateRows_eq_notComplete (List.ne_nil_of_mem hr) (Bool.eq_false_iff.mpr hsum))

/-- Witness for C4 (amended): `[{R1, 0}]` contains an out-of-range row and
is rejected as `AllocationNotComplete` because its sum, 0, is not 100. -/
theorem c4_order_of_checks_witness :
    saveAllocations false [] "A" [⟨"R1", "0"⟩] = (.notComplete, []) := by
  have h := c4_order_of_checks false [] "A" [⟨"R1", "0"⟩] ⟨"R1", "0"⟩
    (by decide) (by decide)
  rw [h]
  decide

/-- C4 counterexample: committing `[{R1, 0}]` is rejected, but with the
`AllocationNotComplete` error ("must total 100%"), not with
`InvalidPercentage` as the claim states — the sum check fires first. -/
theorem c4_counterexample :
    rowInvalid ⟨"R1", "0"⟩ = true ∧
    saveAllocations false [] "A" [⟨"R1", "0"⟩] = (.notComplete, []) ∧
    SaveOutcome.notComplete ≠ SaveOutcome.invalidPercentage := by
  decide

/-- C5: full replace semantics.  A commit that reports success leaves the
table equal to the old table minus every row of the asset, plus exactly
the new rows; committing `[{R1, 100}]` and then `[{R2, 100}]` leaves only
`{R2, 100}` stored; and committing the empty buffer clears the asset's
rows and succeeds. -/
theorem c5_replace_semantics (db : List StoredAlloc) (assetId : String)
    (rows : List AllocRow) :
    ((saveAllocations false db assetId rows).1 = .saved →
      (saveAllocations false db assetId rows).2
        = deleteForAsset db assetId ++ newStoredRows assetId rows) ∧
    ((saveAllocations false [] "A" [⟨"R1", "100"⟩]).2 = [⟨"A", "R1", ⟨10000, 100⟩⟩] ∧
      saveAllocations false [⟨"A", "R1", ⟨10000, 100⟩⟩] "A" [⟨"R2", "100"⟩]
        = (.saved, [⟨"A", "R2", ⟨10000, 100⟩⟩])) ∧
    saveAllocations false db assetId [] = (.saved, deleteForAsset db assetId) := by
  refine ⟨?_, by decide, ?_⟩
  · intro h
    cases hv : validateRows rows with
    | some e =>
      rw [saveAllocations_validate_some false db assetId hv] at h ⊢
      rcases validateRows_cases hv with he | he <;> rw [he] at h <;> simp at h
    | none =>
      rw [saveAllocations_validate_none false db assetId hv] at h ⊢
      unfold commitPhase at h ⊢
      have hif : (if (false = true) then db else deleteForAsset db assetId)
          = deleteForAsset db assetId := if_neg (by simp)
      rw [hif] at h ⊢
      by_cases hlen : rows.length > 0
      · rw [if_pos hlen] at h ⊢
        cases hins : dbInsert (deleteForAsset db assetId) (newStoredRows assetId rows) with
        | some db2 =>
          simp only [hins]
          exact dbInsert_eq_some hins
        | none =>
          rw [hins] at h
          simp at h
      · rw [if_neg hlen] at h ⊢
        have : rows = [] := List.length_eq_zero.mp (Nat.eq_zero_of_not_pos hlen)
        simp [this, newStoredRows]
  · rw [saveAllocations_validate_none false db assetId (by decide)]
    unfold commitPhase
    simp

/-- Witness for C5: a successful commit of `[{R1, 60}, {R2, 40}]` over an
unrelated stored row replaces exactly the asset's rows. -/
theorem c5_replace_semantics_witness :
    (saveAllocations false [⟨"B", "R9", ofInt 100⟩, ⟨"A", "R3", ofInt 100⟩] "A"
        [⟨"R1", "60"⟩, ⟨"R2", "40"⟩]).2
      = deleteForAsset [⟨"B", "R9", ofInt 100⟩, ⟨"A", "R3", ofInt 100⟩] "A"
          ++ newStoredRows "A" [⟨"R1", "60"⟩, ⟨"R2", "40"⟩] :=
  (c5_replace_semantics [⟨"B", "R9", ofInt 100⟩, ⟨"A", "R3", ofInt 100⟩] "A"
    [⟨"R1", "60"⟩, ⟨"R2", "40"⟩]).1 (by decide)

/-- C9 counterexample: the percentages 33.1, 33.2 and 33.7 each have at
most two fractional digits, each lies in `(0, 100]`, and they sum to
exactly 100 in exact rational arithmetic — yet the commit operation
rejects the set with `AllocationNotComplete`, because the IEEE-754 double
sum `(33.1 + 33.2) + 33.7` is not equal to 100. -/
theorem c9_counterexample :
    qEq (qAdd (qAdd ⟨331, 10⟩ ⟨332, 10⟩) ⟨337, 10⟩) (ofInt 100) = true ∧
    ([⟨"R1", "33.1"⟩, ⟨"R2", "33.2"⟩, ⟨"R3", "33.7"⟩] : List AllocRow).any rowInvalid
        = false ∧
    qEq (getTotalPercentage [⟨"R1", "33.1"⟩, ⟨"R2", "33.2"⟩, ⟨"R3", "33.7"⟩])
        (ofInt 100) = false ∧
    saveAllocations false [] "A" [⟨"R1", "33.1"⟩, ⟨"R2", "33.2"⟩, ⟨"R3", "33.7"⟩]
        = (.notComplete, []) := by
  decide

/-- C9 (amended): the sum comparison is raw double equality against 100,
with no fixed-point normalization: a non-empty buffer is rejected as
`AllocationNotComplete` exactly when its double sum differs from 100.
Many two-decimal sets whose exact sum is 100 do pass — e.g.
33.33 + 33.33 + 33.34 — but not all (see the counterexample). -/
theorem c9_raw_double_compare (rows : List AllocRow) :
    (validateRows rows = some .notComplete ↔
      rows ≠ [] ∧ qEq (getTotalPercentage rows) (ofInt 100) = false) ∧
    qEq (getTotalPercentage [⟨"R1", "33.33"⟩, ⟨"R2", "33.33"⟩, ⟨"R3", "33.34"⟩])
        (ofInt 100) = true := by
  refine ⟨⟨?_, ?_⟩, by decide⟩
  · intro h
    unfold validateRows at h
    split at h
    · next hcond =>
      rcases Bool.and_eq_true_iff.mp hcond with ⟨h1, h2⟩
      refine ⟨?_, ?_⟩
      · intro hnil
        rw [hnil] at h1
        simp at h1
      · simpa using h2
    · split at h <;> cases h
  · intro ⟨hne, hsum⟩
    exact validateRows_eq_notComplete hne hsum

/-- C10: the result of the delete call is never inspected.  For a buffer
that passes validation, the outcome reported to the caller is never a
validation error; and when the store fails to perform the delete, the
insert still runs against the unchanged table and alone determines the
outcome — there is no delete-specific error the caller could see. -/
theorem c10_delete_not_inspected (db : List StoredAlloc) (assetId : String)
    (rows : List AllocRow) (h : validateRows rows = none) :
    (∀ df : Bool, (saveAllocations df db assetId rows).1 ≠ .notComplete ∧
      (saveAllocations df db assetId rows).1 ≠ .invalidPercentage) ∧
    (saveAllocations true db assetId rows
      = if rows.length > 0 then
          match dbInsert db (newStoredRows assetId rows) with
          | some db2 => (.saved, db2)
          | none => (.saveFailed, db)
        else (.saved, db)) := by
  constructor
  · intro df
    rw [saveAllocations_validate_none df db assetId h]
    unfold commitPhase
    by_cases hlen : rows.length > 0
    · rw [if_pos hlen]
      cases hins : dbInsert (if df then db else deleteForAsset db assetId)
          (newStoredRows assetId rows) <;> simp [hins]
    · rw [if_neg hlen]
      simp
  · rw [saveAllocations_validate_none true db assetId h]
    unfold commitPhase
    rfl

/-- Witness for C10: with the delete reported failed, a validated commit
still runs its insert and reports plain success. -/
theorem c10_delete_not_inspected_witness :
    saveAllocations true [] "A" [⟨"R1", "100"⟩]
      = (.saved, [⟨"A", "R1", ⟨10000, 100⟩⟩]) := by
  rw [(c10_delete_not_inspected [] "A" [⟨"R1", "100"⟩] (by decide)).2]
  decide

/-- C6 counterexample: saving chat content over an existing `completed`
chat will moves its status back to `in_progress` — the update sets
`status: "in_progress"` unconditionally, not only from `draft`. -/
theorem c6_counterexample :
    (handleSaveAndContinue
        [{ id := "w1", user_id := "u1", type := "chat", status := "completed",
           title := "t", content := some "c", transcript := some "c",
           updated_at := 0 }] "u1" "new words" "w2" 5).map Will.status
      = ["in_progress"] ∧ ("completed" : String) ≠ "in_progress" := by
  decide

/-- C6 (amended): when a will of the requested type already exists for the
owner, saving content sets its status to `in_progress` unconditionally,
whatever state it was in — so a `completed` (or `review`) will does
transition back to `in_progress`. -/
theorem c6_save_always_in_progress (wills : List Will)
    (userId transcript newId : String) (now : Nat) (w : Will)
    (hfind : findWill wills userId "chat" = some w) :
    ∀ x ∈ handleSaveAndContinue wills userId transcript newId now,
      x.id = w.id → x.status = "in_progress" := by
  intro x hx hid
  unfold handleSaveAndContinue at hx
  rw [hfind] at hx
  rcases List.mem_map.mp hx with ⟨y, hy, hxy⟩
  subst hxy
  by_cases hyid : (y.id == w.id) = true
  · rw [if_pos hyid]
  · rw [if_neg hyid]
    rw [if_neg hyid] at hid
    exact absurd hid (by simpa using hyid)

/-- Witness for C6 (amended): applied to a store holding one completed
chat will. -/
theorem c6_save_always_in_progress_witness :
    ({ id := "w1", user_id := "u1", type := "chat", status := "in_progress",
       title := "My Chat-Based Will", content := some "new words",
       transcript := some "new words", updated_at := 5 } : Will).status
      = "in_progress" := by
  have h := c6_save_always_in_progress
    [{ id := "w1", user_id := "u1", type := "chat", status := "completed",
       title := "My Chat-Based Will", content := some "c", transcript := some "c",
       updated_at := 0 }]
    "u1" "new words" "w2" 5
    { id := "w1", user_id := "u1", type := "chat", status := "completed",
      title := "My Chat-Based Will", content := some "c", transcript := some "c",
      updated_at := 0 }
    (by decide)
  exact h _ (by decide) (by decide)

theorem mem_setCompleted {wills : List Will} {w x : Will}
    (hx : x ∈ wills.map fun y =>
      if y.id == w.id then { y with status := "completed" } else y)
    (hid : x.id = w.id) : x.status = "completed" := by
  rcases List.mem_map.mp hx with ⟨y, hy, hxy⟩
  subst hxy
  by_cases hyid : (y.id == w.id) = true
  · rw [if_pos hyid]
  · rw [if_neg hyid]
    rw [if_neg hyid] at hid
    exact absurd hid (by simpa using hyid)

theorem handleSubmit_snd (wills : List Will) (w : Will)
    (recipients : List RecipientRec) (outcome : NotifyOutcome) :
    (handleSubmit wills (some w) true recipients false outcome).2
      = wills.map fun y =>
          if y.id == w.id then { y with status := "completed" } else y := by
  by_cases h : recipients.length > 0
  · cases outcome with
    | invokeError => simp [handleSubmit, h]
    | ok sent total => by_cases hs : sent > 0 <;> simp [handleSubmit, h, hs]
  · simp [handleSubmit, h]

/-- C7: once the acknowledgment is given, a will exists, and the status
update itself goes through, finalize marks the will `completed` whatever
the notification outcome is; no notification failure blocks or reverts
it, and a failing notification call is surfaced only as the warning
variant of a completed finalize. -/
theorem c7_finalize_completes (wills : List Will) (w : Will)
    (recipients : List RecipientRec) (outcome : NotifyOutcome) :
    (∀ x ∈ (handleSubmit wills (some w) true recipients false outcome).2,
        x.id = w.id → x.status = "completed") ∧
    ((handleSubmit wills (some w) true recipients false outcome).1 ≠ .blocked ∧
      (handleSubmit wills (some w) true recipients false outcome).1 ≠ .noWill ∧
      (handleSubmit wills (some w) true recipients false outcome).1 ≠ .failed) ∧
    (recipients.length > 0 → outcome = .invokeError →
      handleSubmit wills (some w) true recipients false outcome
        = (.doneWarn, wills.map fun y =>
            if y.id == w.id then { y with status := "completed" } else y)) := by
  refine ⟨?_, ?_, ?_⟩
  · intro x hx hid
    rw [handleSubmit_snd] at hx
    exact mem_setCompleted hx hid
  · refine ⟨?_, ?_, ?_⟩ <;>
    · by_cases h : recipients.length > 0
      · cases outcome with
        | invokeError => simp [handleSubmit, h]
        | ok sent total => by_cases hs : sent > 0 <;> simp [handleSubmit, h, hs]
      · simp [handleSubmit, h]
  · intro hrec hout
    subst hout
    simp [handleSubmit, hrec]

/-- Witness for C7: finalizing a will in `review` with one recipient while
the notification call errors still completes the will, with a warning. -/
theorem c7_finalize_completes_witness :
    handleSubmit
        [{ id := "w1", user_id := "u1", type := "chat", status := "review",
           title := "t", content := some "c", transcript := some "c",
           updated_at := 0 }]
        (some { id := "w1", user_id := "u1", type := "chat", status := "review",
                title := "t", content := some "c", transcript := some "c",
                updated_at := 0 })
        true [{ id := "r1", full_name := "N", email := some "a@b.c" }]
        false .invokeError
      = (.doneWarn,
          [{ id := "w1", user_id := "u1", type := "chat", status := "completed",
             title := "t", content := some "c", transcript := some "c",
             updated_at := 0 }]) := by
  have h := (c7_finalize_completes
    [{ id := "w1", user_id := "u1", type := "chat", status := "review",
       title := "t", content := some "c", transcript := some "c", updated_at := 0 }]
    { id := "w1", user_id := "u1", type := "chat", status := "review",
      title := "t", content := some "c", transcript := some "c", updated_at := 0 }
    [{ id := "r1", full_name := "N", email := some "a@b.c" }]
    .invokeError).2.2 (by decide) rfl
  rw [h]
  decide

theorem filter_hasEmail_fusion (recipients : List RecipientRec) :
    ((recipients.filter fun r => r.email.isSome).filter
        fun r => r.email.getD "" != "")
      = recipients.filter hasEmail := by
  induction recipients with
  | nil => rfl
  | cons r rest ih =>
    cases he : r.email with
    | none => simp [List.filter_cons, he, hasEmail, ih]
    | some e =>
      by_cases hee : e = ""
      · simp [List.filter_cons, he, hasEmail, hee, ih]
      · simp [List.filter_cons, he, hasEmail, hee, ih]

theorem sent_count (l : List RecipientRec) (sendOk : String → Bool) :
    ((l.map fun r => (r.email.getD "", sendOk (r.email.getD ""))).filter
        fun p => p.2).length
      = (l.filter fun r => sendOk (r.email.getD "")).length := by
  induction l with
  | nil => rfl
  | cons r rest ih =>
    by_cases h : sendOk (r.email.getD "") = true
    · simp [List.filter_cons, h, ih]
    · simp [List.filter_cons, h, ih]

/-- C8: the dispatcher attempts exactly one email per recipient with a
(non-null, non-empty) address — recipients without one are filtered out
and not counted — `total` counts all attempts and `sent` the successful
ones, so individual failures do not stop the remaining sends; on the
claim's scenario of one emailed and one email-less recipient it reports
`sent=1, total=1`, and still `total=1` when the send fails. -/
theorem c8_one_email_per_recipient (recipients : List RecipientRec)
    (sendOk : String → Bool) :
    ((notifyHandler recipients sendOk).attempts
        = (recipients.filter hasEmail).map
            fun r => (r.email.getD "", sendOk (r.email.getD ""))) ∧
    ((notifyHandler recipients sendOk).sent
        = ((recipients.filter hasEmail).filter
            fun r => sendOk (r.email.getD "")).length) ∧
    (recipients.filter hasEmail ≠ [] →
      (notifyHandler recipients sendOk).total
        = some (recipients.filter hasEmail).length) ∧
    (notifyHandler [⟨"r1", "N1", some "a@b.c"⟩, ⟨"r2", "N2", none⟩] (fun _ => true)
        = { sent := 1, total := some 1, attempts := [("a@b.c", true)] }) ∧
    (notifyHandler [⟨"r1", "N1", some "a@b.c"⟩, ⟨"r2", "N2", none⟩] (fun _ => false)
        = { sent := 0, total := some 1, attempts := [("a@b.c", false)] }) := by
  refine ⟨?_, ?_, ?_, by decide, by decide⟩
  · unfold notifyHandler
    by_cases h : (recipients.filter fun r => r.email.isSome).isEmpty = true
    · rw [if_pos h]
      have hnil : recipients.filter hasEmail = [] := by
        rw [← filter_hasEmail_fusion, List.isEmpty_iff.mp h]
        rfl
      rw [hnil]
      rfl
    · rw [if_neg h]
      rw [filter_hasEmail_fusion]
  · unfold notifyHandler
    by_cases h : (recipients.filter fun r => r.email.isSome).isEmpty = true
    · rw [if_pos h]
      have hnil : recipients.filter hasEmail = [] := by
        rw [← filter_hasEmail_fusion, List.isEmpty_iff.mp h]
        rfl
      rw [hnil]
      rfl
    · rw [if_neg h]
      simp only [filter_hasEmail_fusion]
      exact sent_count (recipients.filter hasEmail) sendOk
  · intro hne
    unfold notifyHandler
    by_cases h : (recipients.filter fun r => r.email.isSome).isEmpty = true
    · exact absurd (by rw [← filter_hasEmail_fusion, List.isEmpty_iff.mp h]; rfl) hne
    · rw [if_neg h]
      rw [filter_hasEmail_fusion]
      simp

/-- Witness for C8: on the two-recipient scenario the reported `total` is
1 (the email-less recipient is not counted). -/
theorem c8_one_email_per_recipient_witness :
    (notifyHandler [⟨"r1", "N1", some "a@b.c"⟩, ⟨"r2", "N2", none⟩]
        (fun _ => true)).total = some 1 := by
  have h := (c8_one_email_per_recipient
    [⟨"r1", "N1", some "a@b.c"⟩, ⟨"r2", "N2", none⟩] (fun _ => true)).2.2.1
    (by decide)
  rw [h]
  decide

end LegacyWallet
